import Mathlib

/-!
Verification development for the emitter pub/sub client (`src/v2/emitter.go`).

The dispatch orchestrator (`Client.onMessage`, `Client.onError`,
`Client.onResponse`), the blocking request pipeline (`Client.request`,
`Client.do`), the outbound topic formatter (`formatTopic`), and the
subscribe/unsubscribe operations are translated directly from the Go
source.  The Topic Registry (trie), the Correlation Store, and the
response/option types live in repository files that are not part of the
provided source tree; those are modelled from the design document and
carry a `Modelled from the spec:` note in their doc comment.

Go callbacks are represented by opaque numeric identifiers, and the side
effects of a dispatch (invoking the default handler, invoking a
subscription handler, delivering to the error callback, logging,
resolving a pending request) are recorded as an explicit trace of
`Effect` values.
-/

set_option autoImplicit false

/-- A topic or pattern segment, as a list of characters. -/
abbrev Seg := List Char

/-- Splits a character list on the `/` delimiter, mirroring Go's
`strings.Split(s, "/")`: the result always has one more element than the
number of delimiters, and empty segments are kept. -/
def splitAux (acc : List Char) : List Char → List Seg
  | [] => [acc.reverse]
  | c :: rest => if c = '/' then acc.reverse :: splitAux [] rest else splitAux (c :: acc) rest

/-- Splits a string into its slash-delimited segments. -/
def splitStr (s : String) : List Seg := splitAux [] s.data

/-- Mirrors Go's `strings.HasPrefix(s, pre)`. -/
def startsWith (s pre : String) : Bool := pre.data.isPrefixOf s.data

/-- Mirrors Go's `strings.TrimPrefix(s, pre)`: removes one leading copy of
`pre` when present. -/
def trimPre (s pre : String) : String :=
  if pre.data.isPrefixOf s.data then ⟨s.data.drop pre.data.length⟩ else s

/-- Mirrors Go's `strings.TrimSuffix(s, suf)`: removes one trailing copy of
`suf` when present. -/
def trimSuf (s suf : String) : String :=
  if suf.data.isSuffixOf s.data then ⟨s.data.take (s.data.length - suf.data.length)⟩ else s

/-- The single-level wildcard segment `+`. -/
def plusSeg : Seg := ['+']

/-- The multi-level wildcard segment `#`. -/
def hashSeg : Seg := ['#']

/-- Modelled from the spec: the Topic Registry is a "trie-like matcher"
(§4.1); its Go implementation is not under the provided source tree.  A
node stores the callbacks registered for the pattern ending at this node
together with its children, keyed by pattern segment. -/
inductive Trie where
  | node : List Nat → List (Seg × Trie) → Trie

/-- The callbacks registered at this node. -/
def Trie.handlers : Trie → List Nat
  | .node hs _ => hs

/-- The children of this node, keyed by segment. -/
def Trie.children : Trie → List (Seg × Trie)
  | .node _ cs => cs

/-- The empty registry. -/
def triEmpty : Trie := .node [] []

/-- Looks a child up by its segment key. -/
def assocGet : List (Seg × Trie) → Seg → Option Trie
  | [], _ => none
  | (k, v) :: rest, key => if k = key then some v else assocGet rest key

/-- Replaces the child stored under `key` (keeping its position), or appends
a new entry when the key is absent. -/
def assocSet : List (Seg × Trie) → Seg → Trie → List (Seg × Trie)
  | [], key, val => [(key, val)]
  | (k, v) :: rest, key, val =>
      if k = key then (k, val) :: rest else (k, v) :: assocSet rest key val

/-- Modelled from the spec: `AddHandler` "appends callback to the pattern's
handler list; if the pattern has no prior registration, creates it"
(§4.1), walking the trie along the pattern's segments. -/
def addSegs : List Seg → Nat → Trie → Trie
  | [], h, .node hs cs => .node (hs ++ [h]) cs
  | p :: ps, h, .node hs cs =>
      .node hs (assocSet cs p (addSegs ps h ((assocGet cs p).getD triEmpty)))

/-- Modelled from the spec: `RemoveHandler` "deletes the entire entry (all
callbacks) for that exact literal pattern; removing a non-existent pattern
is a no-op" (§4.1). -/
def removeSegs : List Seg → Trie → Trie
  | [], .node _ cs => .node [] cs
  | p :: ps, .node hs cs =>
      match assocGet cs p with
      | some c => .node hs (assocSet cs p (removeSegs ps c))
      | none => .node hs cs

/-- Modelled from the spec: `Lookup` "walks a segment-indexed structure, at
each level considering (in this precedence) an exact-literal match, a
single-level-wildcard match, and ... a multi-level-wildcard match that
short-circuits the remaining segments" (§4.1). -/
def lookupSegs : List Seg → Trie → List Nat
  | [], t => t.handlers
  | seg :: rest, t =>
      (match assocGet t.children seg with
        | some c => lookupSegs rest c
        | none => [])
      ++ (match assocGet t.children plusSeg with
        | some c => lookupSegs rest c
        | none => [])
      ++ (match assocGet t.children hashSeg with
        | some c => c.handlers
        | none => [])

/-- Registers `h` under `pattern`. -/
def Trie.AddHandler (t : Trie) (pattern : String) (h : Nat) : Trie :=
  addSegs (splitStr pattern) h t

/-- Removes every callback registered under the exact pattern. -/
def Trie.RemoveHandler (t : Trie) (pattern : String) : Trie :=
  removeSegs (splitStr pattern) t

/-- Returns the callbacks matching the concrete topic. -/
def Trie.Lookup (t : Trie) (topic : String) : List Nat :=
  lookupSegs (splitStr topic) t

/-- Declarative wildcard matching on segment lists: a trailing `#` matches
one or more remaining segments, `+` matches exactly one segment, and a
literal segment matches itself.  This is the predicate the registry's
`Lookup` is proved to realise. -/
def patMatch : List Seg → List Seg → Bool
  | [], [] => true
  | [], _ :: _ => false
  | _ :: _, [] => false
  | p :: ps, t :: ts =>
      if p = hashSeg ∧ ps = [] then true
      else (p = plusSeg || p = t) && patMatch ps ts

/-- String-level wildcard matching between a pattern and a topic. -/
def topicMatches (pattern topic : String) : Bool :=
  patMatch (splitStr pattern) (splitStr topic)

/-- A topic is wildcard-free when none of its segments is `+` or `#`; the
spec's data model states a topic "never contains wildcards" (§3). -/
def wildcardFree (topic : String) : Bool :=
  (splitStr topic).all (fun s => !(s = plusSeg : Bool) && !(s = hashSeg : Bool))

/-- Builds a registry by registering the given (pattern, callback) bindings
in order. -/
def buildTrie (bs : List (String × Nat)) : Trie :=
  bs.foldl (fun t b => t.AddHandler b.1 b.2) triEmpty

/-- Modelled from the spec: an error envelope "extracting a request
identifier and error indicator" (§1); the dispatcher tests
`errResponse.Error() != ""` and reads `errResponse.RequestID()`.  The Go
`Error` type lives in a repository file outside the provided tree. -/
structure ErrorEnvelope where
  requestID : Nat
  message : String
deriving DecidableEq

/-- Modelled from the spec: the key-generation reply (`keyGenResponse`),
carrying a request id and the generated key. -/
structure KeyGenResponse where
  requestID : Nat
  key : String
deriving DecidableEq

/-- Modelled from the spec: the link-creation reply (`Link`), carrying a
request id and the channel the link points at. -/
structure LinkResponse where
  requestID : Nat
  channel : String
deriving DecidableEq

/-- Modelled from the spec: the self-identity reply (`meResponse`),
carrying a request id and the client identifier. -/
structure MeResponse where
  requestID : Nat
  id : String
deriving DecidableEq

/-- A value delivered through a correlation slot: either a decoded error
envelope or one of the three typed administrative replies. -/
inductive Response where
  | err : ErrorEnvelope → Response
  | keygen : KeyGenResponse → Response
  | link : LinkResponse → Response
  | me : MeResponse → Response
deriving DecidableEq

/-- The request id embedded in a response (`RequestID()` in Go). -/
def respID : Response → Nat
  | .err e => e.requestID
  | .keygen r => r.requestID
  | .link r => r.requestID
  | .me r => r.requestID

/-- The three kinds of typed administrative replies. -/
inductive RespKind where
  | keygen
  | link
  | me
deriving DecidableEq

/-- An inbound payload, abstracted to the outcomes of the JSON decode
attempts the dispatcher performs on it: `none` models a decode (or Go
type-assertion) failure for that shape. -/
structure Payload where
  asError : Option ErrorEnvelope
  presenceOk : Bool
  asKeygen : Option KeyGenResponse
  asLink : Option LinkResponse
  asMe : Option MeResponse
deriving DecidableEq

/-- Decoding the payload as the typed response expected for a reply kind. -/
def typedDecode (p : Payload) : RespKind → Option Response
  | .keygen => p.asKeygen.map Response.keygen
  | .link => p.asLink.map Response.link
  | .me => p.asMe.map Response.me

/-- An inbound message: a concrete topic plus its payload. -/
structure Msg where
  topic : String
  payload : Payload
deriving DecidableEq

/-- Modelled from the spec: the Correlation Store "maps outstanding request
identifiers ... to a one-shot delivery slot" (§2); its Go implementation
(`store`) is not under the provided source tree.  Only the set of open
slots is tracked; the value delivered through a slot is recorded in the
dispatch trace. -/
structure Store where
  pending : List Nat
deriving DecidableEq

/-- Modelled from the spec: `PutCallback(requestID)` "registers a new
one-shot slot for requestID" (§4.2). -/
def Store.PutCallback (s : Store) (id : Nat) : Store :=
  ⟨s.pending ++ [id]⟩

/-- Modelled from the spec: `NotifyResponse` "looks up the slot; if found,
fills it ... and removes it from the map, returning true; if not found,
returns false without side effects" (§4.2). -/
def Store.NotifyResponse (s : Store) (id : Nat) : Bool × Store :=
  if id ∈ s.pending then (true, ⟨s.pending.erase id⟩) else (false, s)

/-- What a blocked caller receives from its slot. -/
inductive SlotValue where
  | delivered : Response → SlotValue
  | timedOut : SlotValue
deriving DecidableEq

/-- Modelled from the spec: when "the bound elapses first, the caller must
treat the request as failed with a Timeout error and the store must
guarantee the slot is no longer reachable for a late NotifyResponse"
(§4.2); the slot is filled with the synthetic timeout value (§3). -/
def Store.timeoutExpire (s : Store) (id : Nat) : SlotValue × Store :=
  (SlotValue.timedOut, ⟨s.pending.erase id⟩)

/-- The observable side effects of dispatching one inbound message. -/
inductive Effect where
  | defaultHandler : Effect
  | handler : Nat → Effect
  | presenceCb : Effect
  | errorCb : ErrorEnvelope → Effect
  | logged : String → Effect
  | resolved : Nat → Response → Effect
deriving DecidableEq

/-- The dispatch-relevant state of an emitter `Client`: which of the
optional user callbacks are registered, the handler registry, the
in-flight request store, and the cached client identifier. -/
structure Client where
  message : Bool
  presence : Bool
  errors : Bool
  handlers : Trie
  store : Store
  guid : String

/-- The reserved administrative topic namespace. -/
def emitterPre : String := "emitter/"

/-- The presence-event sub-namespace. -/
def presencePre : String := "emitter/presence/"

/-- The error sub-namespace. -/
def errorPre : String := "emitter/error/"

/-- The key-generation reply sub-namespace. -/
def keygenPre : String := "emitter/keygen/"

/-- The link-creation reply sub-namespace. -/
def linkPre : String := "emitter/link/"

/-- The self-identity reply sub-namespace. -/
def mePre : String := "emitter/me/"

/-- The sub-namespace on which replies of a given kind arrive. -/
def adminPre : RespKind → String
  | .keygen => keygenPre
  | .link => linkPre
  | .me => mePre

/-- Translates `Client.onError` (src/v2/emitter.go:199-212): drop on decode
failure; without an error callback, log and skip the store; with one,
notify the store and invoke the callback exactly when no pending request
matched. -/
def Client.onError (c : Client) (m : Msg) : List Effect × Store :=
  match m.payload.asError with
  | none => ([], c.store)
  | some e =>
      if c.errors then
        let n := Store.NotifyResponse c.store e.requestID
        (if n.1 then [Effect.resolved e.requestID (Response.err e)] else [Effect.errorCb e], n.2)
      else
        ([Effect.logged e.message], c.store)

/-- Translates the typed-decode half of `Client.onResponse`
(src/v2/emitter.go:191-195): unmarshal as the expected response and notify
the store when the request id is positive. -/
def Client.onResponseTyped (c : Client) (m : Msg) (k : RespKind) : Bool × List Effect × Store :=
  match typedDecode m.payload k with
  | some r =>
      if respID r > 0 then
        let n := Store.NotifyResponse c.store (respID r)
        (n.1, if n.1 then [Effect.resolved (respID r) r] else [], n.2)
      else (false, [], c.store)
  | none => (false, [], c.store)

/-- Translates `Client.onResponse` (src/v2/emitter.go:183-196): try the
error envelope first; on a non-empty error message notify the store with
the envelope, otherwise fall through to the typed decode. -/
def Client.onResponse (c : Client) (m : Msg) (k : RespKind) : Bool × List Effect × Store :=
  match m.payload.asError with
  | some e =>
      if e.message ≠ "" then
        let n := Store.NotifyResponse c.store e.requestID
        (n.1, if n.1 then [Effect.resolved e.requestID (Response.err e)] else [], n.2)
      else Client.onResponseTyped c m k
  | none => Client.onResponseTyped c m k

/-- Translates `Client.onMessage` (src/v2/emitter.go:139-180): data
dispatch first (default handler when the registry lookup is empty, then
every matched handler), then the prefix-classified administrative cases. -/
def Client.onMessage (c : Client) (m : Msg) : List Effect × Store :=
  if c.message && !(startsWith m.topic emitterPre) then
    ((if (Trie.Lookup c.handlers m.topic).length = 0 then [Effect.defaultHandler] else [])
      ++ (Trie.Lookup c.handlers m.topic).map Effect.handler, c.store)
  else if c.presence && startsWith m.topic presencePre then
    (if m.payload.presenceOk then [Effect.presenceCb] else [], c.store)
  else if startsWith m.topic errorPre then
    Client.onError c m
  else if startsWith m.topic keygenPre then
    (Client.onResponse c m RespKind.keygen).2
  else if startsWith m.topic linkPre then
    (Client.onResponse c m RespKind.link).2
  else if startsWith m.topic mePre then
    (Client.onResponse c m RespKind.me).2
  else ([], c.store)

/-- The errors a blocking emitter call can produce: `ErrTimeout`,
`ErrUnmarshal`, a transport error reported by the operation token, or a
service-reported error envelope (the Go `Error` implements `error`). -/
inductive GoErr where
  | timeout : GoErr
  | unmarshal : GoErr
  | transport : String → GoErr
  | service : ErrorEnvelope → GoErr
deriving DecidableEq

/-- Translates `Client.do` (src/v2/emitter.go:401-407): `ErrTimeout` when
the token's bounded wait fails, otherwise the token's own error.  The
token's outcome is abstracted by whether `WaitTimeout` succeeded and the
optional error message `Error()` reports. -/
def Client.do (tokenWaitOK : Bool) (tokenErr : Option String) : Option GoErr :=
  if !tokenWaitOK then some GoErr.timeout
  else tokenErr.map GoErr.transport

/-- Translates `Client.request` (src/v2/emitter.go:381-398): receive the
slot value, then fail on any token error from `Client.do`, then fail when
the slot value is itself an error (a service envelope or the synthetic
timeout), otherwise return the typed response. -/
def Client.request (slot : SlotValue) (tokenWaitOK : Bool) (tokenErr : Option String) :
    Except GoErr Response :=
  match Client.do tokenWaitOK tokenErr with
  | some e => Except.error e
  | none =>
      match slot with
      | .timedOut => Except.error GoErr.timeout
      | .delivered (Response.err e) => Except.error (GoErr.service e)
      | .delivered r => Except.ok r

/-- Translates `Client.GenerateKey` (src/v2/emitter.go:312-328): propagate
the request error, return the key of a key-generation response, and fall
back to `ErrUnmarshal` when the response has any other type. -/
def Client.GenerateKey (slot : SlotValue) (tokenWaitOK : Bool) (tokenErr : Option String) :
    Except GoErr String :=
  match Client.request slot tokenWaitOK tokenErr with
  | Except.error e => Except.error e
  | Except.ok (Response.keygen r) => Except.ok r.key
  | Except.ok _ => Except.error GoErr.unmarshal

/-- Translates `Client.CreateLink` (src/v2/emitter.go:356-378): propagate
the request error; on a link response, register the optional handler under
the returned channel and return the link; otherwise `ErrUnmarshal`. -/
def Client.CreateLink (handlers : Trie) (slot : SlotValue) (tokenWaitOK : Bool)
    (tokenErr : Option String) (optHandler : Option Nat) : Except GoErr LinkResponse × Trie :=
  match Client.request slot tokenWaitOK tokenErr with
  | Except.error e => (Except.error e, handlers)
  | Except.ok (Response.link r) =>
      (Except.ok r,
        match optHandler with
        | some h => handlers.AddHandler r.channel h
        | none => handlers)
  | Except.ok _ => (Except.error GoErr.unmarshal, handlers)

/-- Translates `Client.CreatePrivateLink` (src/v2/emitter.go:331-353): the
observable result handling is identical to `Client.CreateLink`; the two
differ only in the `private` flag of the outbound request body, which is
not part of the reply-handling state. -/
def Client.CreatePrivateLink (handlers : Trie) (slot : SlotValue) (tokenWaitOK : Bool)
    (tokenErr : Option String) (optHandler : Option Nat) : Except GoErr LinkResponse × Trie :=
  match Client.request slot tokenWaitOK tokenErr with
  | Except.error e => (Except.error e, handlers)
  | Except.ok (Response.link r) =>
      (Except.ok r,
        match optHandler with
        | some h => handlers.AddHandler r.channel h
        | none => handlers)
  | Except.ok _ => (Except.error GoErr.unmarshal, handlers)

/-- Translates `Client.ID` (src/v2/emitter.go:225-238).  `guid` is the
cached identifier, `reqOut` the outcome the `me` request would produce.
The result is `(returned value, new cached identifier, whether a request
was issued)`: a non-empty cache short-circuits; otherwise the request is
issued and a successfully typed `me` reply is stored in the cache. -/
def Client.ID (guid : String) (reqOut : Except GoErr Response) : String × String × Bool :=
  if guid ≠ "" then (guid, guid, false)
  else
    match reqOut with
    | Except.ok (Response.me r) => (r.id, r.id, true)
    | _ => (guid, guid, true)

/-- Modelled from the spec: an outbound channel option, rendered as an
`option=value` pair (§6); the Go `Option` type is not under the provided
source tree. -/
structure Opt where
  name : String
  value : String
deriving DecidableEq

/-- Renders an option as `option=value`. -/
def Opt.render (o : Opt) : String := o.name ++ "=" ++ o.value

/-- Translates the option-joining loop of `formatTopic`
(src/v2/emitter.go:420-429): option strings separated by `&`. -/
def joinOpts : List Opt → String
  | [] => ""
  | [o] => o.render
  | o :: rest => o.render ++ "&" ++ joinOpts rest

/-- Translates `formatTopic` (src/v2/emitter.go:410-437): trim slashes off
the key and channel, render the query, and omit the key segment when the
trimmed key is empty. -/
def formatTopic (key channel : String) (options : List Opt) : String :=
  let k := trimSuf (trimPre key "/") "/"
  let ch := trimSuf (trimPre channel "/") "/"
  let opts := if options.length > 0 then "?" ++ joinOpts options else ""
  if k.data.length = 0 then ch ++ "/" ++ opts
  else k ++ "/" ++ ch ++ "/" ++ opts

/-- Translates `Client.Subscribe` (src/v2/emitter.go:267-275): register the
optional handler in the registry, then issue the transport subscribe.  The
result is `(returned error, new registry, topic passed to the
transport)`. -/
def Client.Subscribe (handlers : Trie) (key channel : String) (optHandler : Option Nat)
    (options : List Opt) (tokenWaitOK : Bool) (tokenErr : Option String) :
    Option GoErr × Trie × String :=
  let handlers' :=
    match optHandler with
    | some h => handlers.AddHandler channel h
    | none => handlers
  (Client.do tokenWaitOK tokenErr, handlers', formatTopic key channel options)

/-- Translates `Client.Unsubscribe` (src/v2/emitter.go:286-294): remove the
channel's handlers from the registry, then issue the transport
unsubscribe (with no options). -/
def Client.Unsubscribe (handlers : Trie) (key channel : String) (tokenWaitOK : Bool)
    (tokenErr : Option String) : Option GoErr × Trie × String :=
  (Client.do tokenWaitOK tokenErr, handlers.RemoveHandler channel, formatTopic key channel [])

/-- A prefix of a prefix of a string is a prefix of that string. -/
theorem startsWith_trans {s : String} (p q : String)
    (hpq : p.data.isPrefixOf q.data = true) (h : startsWith s q = true) :
    startsWith s p = true := by
  unfold startsWith at *
  rw [List.isPrefixOf_iff_prefix] at *
  exact hpq.trans h

/-- Two incomparable strings are never both prefixes of the same string. -/
theorem startsWith_excl {s : String} (p q : String) (h : startsWith s p = true)
    (h1 : p.data.isPrefixOf q.data = false) (h2 : q.data.isPrefixOf p.data = false) :
    startsWith s q = false := by
  unfold startsWith at *
  rw [List.isPrefixOf_iff_prefix] at h
  by_contra hq
  rw [Bool.not_eq_false, List.isPrefixOf_iff_prefix] at hq
  rcases List.prefix_or_prefix_of_prefix h hq with h' | h'
  · rw [← List.isPrefixOf_iff_prefix] at h'
    rw [h'] at h1
    exact Bool.true_eq_false.mp h1
  · rw [← List.isPrefixOf_iff_prefix] at h'
    rw [h'] at h2
    exact Bool.true_eq_false.mp h2

/-- Projects a subscription-handler invocation out of an effect. -/
def effHandler : Effect → Option Nat
  | .handler h => some h
  | _ => none

/-- Claim C1: for every inbound message whose topic does not begin with the
reserved prefix `emitter/`, when a default-message handler is registered
the dispatcher runs the registry lookup; the default handler is invoked if
and only if the lookup returns no handlers, every handler returned by the
lookup is invoked in lookup order, and the store is untouched. -/
theorem claim1_data_dispatch (c : Client) (m : Msg)
    (hm : c.message = true) (hp : startsWith m.topic emitterPre = false) :
    (Effect.defaultHandler ∈ (Client.onMessage c m).1 ↔ Trie.Lookup c.handlers m.topic = []) ∧
    (Client.onMessage c m).1.filterMap effHandler = Trie.Lookup c.handlers m.topic ∧
    (Client.onMessage c m).2 = c.store := by
  have hcond : (c.message && !startsWith m.topic emitterPre) = true := by
    rw [hm, hp]
    rfl
  unfold Client.onMessage
  rw [if_pos hcond]
  by_cases hc : Trie.Lookup c.handlers m.topic = []
  · rw [hc]
    refine ⟨by simp, by simp [effHandler], rfl⟩
  · have hlen : ¬(Trie.Lookup c.handlers m.topic).length = 0 := fun h =>
      hc (List.length_eq_zero.mp h)
    rw [if_neg hlen, List.nil_append]
    refine ⟨?_, ?_, rfl⟩
    · constructor
      · intro hmem
        rcases List.mem_map.mp hmem with ⟨a, _, ha⟩
        exact Effect.noConfusion ha
      · intro h
        exact absurd h hc
    · rw [List.filterMap_map]
      have hcomp : (effHandler ∘ Effect.handler) = some := by
        funext x
        rfl
      rw [hcomp, List.filterMap_some]

/-- Witness for C1: a concrete client with one matching subscription; the
matched handler runs and the default handler does not. -/
theorem claim1_witness :
    ((⟨true, false, false, buildTrie [("a/b/c", 7)], ⟨[]⟩, ""⟩ : Client).message = true) ∧
    (startsWith "a/b/c" emitterPre = false) ∧
    ((Effect.defaultHandler ∈
        (Client.onMessage ⟨true, false, false, buildTrie [("a/b/c", 7)], ⟨[]⟩, ""⟩
          ⟨"a/b/c", ⟨none, false, none, none, none⟩⟩).1 ↔
        Trie.Lookup (buildTrie [("a/b/c", 7)]) "a/b/c" = []) ∧
      (Client.onMessage ⟨true, false, false, buildTrie [("a/b/c", 7)], ⟨[]⟩, ""⟩
          ⟨"a/b/c", ⟨none, false, none, none, none⟩⟩).1.filterMap effHandler =
        Trie.Lookup (buildTrie [("a/b/c", 7)]) "a/b/c" ∧
      (Client.onMessage ⟨true, false, false, buildTrie [("a/b/c", 7)], ⟨[]⟩, ""⟩
          ⟨"a/b/c", ⟨none, false, none, none, none⟩⟩).2 = (⟨[]⟩ : Store)) :=
  ⟨rfl, by decide,
    claim1_data_dispatch ⟨true, false, false, buildTrie [("a/b/c", 7)], ⟨[]⟩, ""⟩
      ⟨"a/b/c", ⟨none, false, none, none, none⟩⟩ rfl (by decide)⟩

/-- Claim C9: with no default-message handler registered, an inbound
message on a non-reserved topic is silently dropped — no subscription
handler runs even when the registry would match, and the store is
untouched. -/
theorem claim9_no_default_drop (c : Client) (m : Msg)
    (hm : c.message = false) (hp : startsWith m.topic emitterPre = false) :
    Client.onMessage c m = ([], c.store) := by
  have sub : ∀ P : String, "emitter/".data.isPrefixOf P.data = true →
      startsWith m.topic P = false := by
    intro P hP
    by_contra h
    rw [Bool.not_eq_false] at h
    have := startsWith_trans emitterPre P hP h
    rw [this] at hp
    exact Bool.true_eq_false.mp hp
  unfold Client.onMessage
  rw [hm, sub presencePre (by decide), sub errorPre (by decide), sub keygenPre (by decide),
    sub linkPre (by decide), sub mePre (by decide)]
  simp

/-- Witness for C9: a registered subscription on `a/b/c` matches the topic,
yet with no default handler set the message produces no effects. -/
theorem claim9_witness :
    ((⟨false, false, false, buildTrie [("a/b/c", 7)], ⟨[]⟩, ""⟩ : Client).message = false) ∧
    (startsWith "a/b/c" emitterPre = false) ∧
    (Trie.Lookup (buildTrie [("a/b/c", 7)]) "a/b/c" ≠ []) ∧
    Client.onMessage ⟨false, false, false, buildTrie [("a/b/c", 7)], ⟨[]⟩, ""⟩
      ⟨"a/b/c", ⟨none, false, none, none, none⟩⟩ = ([], (⟨[]⟩ : Store)) :=
  ⟨rfl, by decide, by decide,
    claim9_no_default_drop ⟨false, false, false, buildTrie [("a/b/c", 7)], ⟨[]⟩, ""⟩
      ⟨"a/b/c", ⟨none, false, none, none, none⟩⟩ rfl (by decide)⟩

/-- The payload carries no service error: decoding as an error envelope
fails outright, or yields an empty error message. -/
def errorSilent (p : Payload) : Prop :=
  p.asError = none ∨ ∃ e, p.asError = some e ∧ e.message = ""

/-- Claim C2: a message on `emitter/error/` goes to `Client.onError`; a
payload that fails to decode is dropped; with no error callback the error
is logged and the store untouched; with an error callback the store is
notified and the callback runs exactly when no pending request matched; in
particular a request id 0 envelope (no such pending id) reaches the
callback and resolves nothing. -/
theorem claim2_error_dispatch (c : Client) (m : Msg)
    (hpre : startsWith m.topic errorPre = true) :
    Client.onMessage c m = Client.onError c m ∧
    (m.payload.asError = none → Client.onError c m = ([], c.store)) ∧
    (∀ e, m.payload.asError = some e → c.errors = false →
      Client.onError c m = ([Effect.logged e.message], c.store)) ∧
    (∀ e, m.payload.asError = some e → c.errors = true →
      Client.onError c m =
        (if (Store.NotifyResponse c.store e.requestID).1
          then [Effect.resolved e.requestID (Response.err e)]
          else [Effect.errorCb e],
         (Store.NotifyResponse c.store e.requestID).2)) ∧
    (∀ e, m.payload.asError = some e → c.errors = true → e.requestID = 0 →
      0 ∉ c.store.pending → Client.onError c m = ([Effect.errorCb e], c.store)) := by
  have hemit : startsWith m.topic emitterPre = true :=
    startsWith_trans emitterPre errorPre (by decide) hpre
  have hpres : startsWith m.topic presencePre = false :=
    startsWith_excl errorPre presencePre hpre (by decide) (by decide)
  refine ⟨?_, ?_, ?_, ?_, ?_⟩
  · unfold Client.onMessage
    rw [hemit, hpres, hpre]
    simp
  · intro h
    unfold Client.onError
    rw [h]
  · intro e he herr
    unfold Client.onError
    rw [he]
    simp [herr]
  · intro e he herr
    unfold Client.onError
    rw [he]
    simp [herr]
  · intro e he herr hid hmem
    have hn : Store.NotifyResponse c.store e.requestID = (false, c.store) := by
      unfold Store.NotifyResponse
      rw [hid, if_neg hmem]
    unfold Client.onError
    rw [he]
    simp [herr, hn]

/-- Witness for C2: an error envelope with request id 0 against a store
whose only pending id is 5 reaches the error callback and leaves the
store unchanged. -/
theorem claim2_witness :
    startsWith "emitter/error/x" errorPre = true ∧
    Client.onError ⟨true, true, true, triEmpty, ⟨[5]⟩, ""⟩
      ⟨"emitter/error/x", ⟨some ⟨0, "oops"⟩, false, none, none, none⟩⟩ =
      ([Effect.errorCb ⟨0, "oops"⟩], (⟨[5]⟩ : Store)) :=
  ⟨by decide,
    (claim2_error_dispatch ⟨true, true, true, triEmpty, ⟨[5]⟩, ""⟩
      ⟨"emitter/error/x", ⟨some ⟨0, "oops"⟩, false, none, none, none⟩⟩
      (by decide)).2.2.2.2 ⟨0, "oops"⟩ rfl rfl rfl (by decide)⟩

/-- Claim C3: a message on an administrative-reply sub-prefix is handled by
`Client.onResponse` for the matching kind; a decoded error envelope with a
non-empty message notifies the store with the envelope's request id
(resolving the pending request when one matches) and the typed decode is
not attempted; otherwise a typed response with a positive request id
notifies the store with the typed value; both decodes failing, or a zero
request id, drops the message with no effect. -/
theorem claim3_admin_replies (c : Client) (m : Msg) (k : RespKind)
    (hpre : startsWith m.topic (adminPre k) = true) :
    Client.onMessage c m = (Client.onResponse c m k).2 ∧
    (∀ e, m.payload.asError = some e → e.message ≠ "" →
      (Client.onResponse c m k).2 =
        (if (Store.NotifyResponse c.store e.requestID).1
          then [Effect.resolved e.requestID (Response.err e)] else [],
         (Store.NotifyResponse c.store e.requestID).2)) ∧
    (∀ r, errorSilent m.payload → typedDecode m.payload k = some r → respID r > 0 →
      (Client.onResponse c m k).2 =
        (if (Store.NotifyResponse c.store (respID r)).1
          then [Effect.resolved (respID r) r] else [],
         (Store.NotifyResponse c.store (respID r)).2)) ∧
    (errorSilent m.payload → typedDecode m.payload k = none →
      (Client.onResponse c m k).2 = ([], c.store)) ∧
    (∀ r, errorSilent m.payload → typedDecode m.payload k = some r → respID r = 0 →
      (Client.onResponse c m k).2 = ([], c.store)) := by
  have htyped : ∀ r, typedDecode m.payload k = some r → respID r = 0 →
      Client.onResponseTyped c m k = (false, [], c.store) := by
    intro r ht hz
    unfold Client.onResponseTyped
    rw [ht]
    simp [hz]
  refine ⟨?_, ?_, ?_, ?_, ?_⟩
  · cases k
    · have hemit : startsWith m.topic emitterPre = true :=
        startsWith_trans emitterPre keygenPre (by decide) hpre
      have hpres : startsWith m.topic presencePre = false :=
        startsWith_excl keygenPre presencePre hpre (by decide) (by decide)
      have herr : startsWith m.topic errorPre = false :=
        startsWith_excl keygenPre errorPre hpre (by decide) (by decide)
      unfold Client.onMessage
      rw [hemit, hpres, herr]
      rw [show startsWith m.topic keygenPre = true from hpre]
      simp
    · have hemit : startsWith m.topic emitterPre = true :=
        startsWith_trans emitterPre linkPre (by decide) hpre
      have hpres : startsWith m.topic presencePre = false :=
        startsWith_excl linkPre presencePre hpre (by decide) (by decide)
      have herr : startsWith m.topic errorPre = false :=
        startsWith_excl linkPre errorPre hpre (by decide) (by decide)
      have hkey : startsWith m.topic keygenPre = false :=
        startsWith_excl linkPre keygenPre hpre (by decide) (by decide)
      unfold Client.onMessage
      rw [hemit, hpres, herr, hkey]
      rw [show startsWith m.topic linkPre = true from hpre]
      simp
    · have hemit : startsWith m.topic emitterPre = true :=
        startsWith_trans emitterPre mePre (by decide) hpre
      have hpres : startsWith m.topic presencePre = false :=
        startsWith_excl mePre presencePre hpre (by decide) (by decide)
      have herr : startsWith m.topic errorPre = false :=
        startsWith_excl mePre errorPre hpre (by decide) (by decide)
      have hkey : startsWith m.topic keygenPre = false :=
        startsWith_excl mePre keygenPre hpre (by decide) (by decide)
      have hlink : startsWith m.topic linkPre = false :=
        startsWith_excl mePre linkPre hpre (by decide) (by decide)
      unfold Client.onMessage
      rw [hemit, hpres, herr, hkey, hlink]
      rw [show startsWith m.topic mePre = true from hpre]
      simp
  · intro e he hne
    unfold Client.onResponse
    rw [he]
    simp [hne]
  · intro r hs ht hpos
    have hrt : Client.onResponseTyped c m k =
        ((Store.NotifyResponse c.store (respID r)).1,
         if (Store.NotifyResponse c.store (respID r)).1
           then [Effect.resolved (respID r) r] else [],
         (Store.NotifyResponse c.store (respID r)).2) := by
      unfold Client.onResponseTyped
      rw [ht]
      simp [hpos]
    rcases hs with h | ⟨e, he, hemp⟩
    · unfold Client.onResponse
      rw [h, hrt]
    · unfold Client.onResponse
      rw [he]
      simp [hemp, hrt]
  · intro hs ht
    have hrt : Client.onResponseTyped c m k = (false, [], c.store) := by
      unfold Client.onResponseTyped
      rw [ht]
    rcases hs with h | ⟨e, he, hemp⟩
    · unfold Client.onResponse
      rw [h, hrt]
    · unfold Client.onResponse
      rw [he]
      simp [hemp, hrt]
  · intro r hs ht hz
    rcases hs with h | ⟨e, he, hemp⟩
    · unfold Client.onResponse
      rw [h, htyped r ht hz]
    · unfold Client.onResponse
      rw [he]
      simp [hemp, htyped r ht hz]

/-- Witness for C3: a keygen reply with request id 3 resolves the pending
request 3 and removes it from the store. -/
theorem claim3_witness :
    startsWith "emitter/keygen/x" (adminPre RespKind.keygen) = true ∧
    (Client.onResponse ⟨true, true, true, triEmpty, ⟨[3]⟩, ""⟩
      ⟨"emitter/keygen/x", ⟨none, false, some ⟨3, "k1"⟩, none, none⟩⟩ RespKind.keygen).2 =
      (if (Store.NotifyResponse (⟨[3]⟩ : Store) (respID (Response.keygen ⟨3, "k1"⟩))).1
        then [Effect.resolved (respID (Response.keygen ⟨3, "k1"⟩)) (Response.keygen ⟨3, "k1"⟩)]
        else [],
       (Store.NotifyResponse (⟨[3]⟩ : Store) (respID (Response.keygen ⟨3, "k1"⟩))).2) :=
  ⟨by decide,
    (claim3_admin_replies ⟨true, true, true, triEmpty, ⟨[3]⟩, ""⟩
      ⟨"emitter/keygen/x", ⟨none, false, some ⟨3, "k1"⟩, none, none⟩⟩ RespKind.keygen
      (by decide)).2.2.1 (Response.keygen ⟨3, "k1"⟩) (Or.inl rfl) rfl (by decide)⟩

/-- Claim C10: registry mutations are not atomic with the transport
operation.  `Subscribe` with a handler installs it in the registry for any
transport outcome — in particular it stays registered when the subscribe
returns `ErrTimeout` or a transport error — and `Unsubscribe` removes the
channel's handlers for any transport outcome. -/
theorem claim10_registry_not_atomic :
    (∀ (tr : Trie) (key ch : String) (h : Nat) (opts : List Opt) (wOK : Bool)
        (tErr : Option String),
      (Client.Subscribe tr key ch (some h) opts wOK tErr).2.1 = tr.AddHandler ch h) ∧
    (∀ (tr : Trie) (key ch : String) (opts : List Opt) (wOK : Bool) (tErr : Option String),
      (Client.Subscribe tr key ch none opts wOK tErr).2.1 = tr) ∧
    (∀ (tr : Trie) (key ch : String) (h : Nat) (opts : List Opt),
      (Client.Subscribe tr key ch (some h) opts false none).1 = some GoErr.timeout) ∧
    (∀ (tr : Trie) (key ch : String) (h : Nat) (opts : List Opt) (s : String),
      (Client.Subscribe tr key ch (some h) opts true (some s)).1 = some (GoErr.transport s)) ∧
    (∀ (tr : Trie) (key ch : String) (wOK : Bool) (tErr : Option String),
      (Client.Unsubscribe tr key ch wOK tErr).2.1 = tr.RemoveHandler ch) ∧
    (∀ (tr : Trie) (key ch : String),
      (Client.Unsubscribe tr key ch false none).1 = some GoErr.timeout) := by
  refine ⟨?_, ?_, ?_, ?_, ?_, ?_⟩ <;> intros <;> rfl

/-- String concatenation is associative. -/
theorem strAppend_assoc (a b c : String) : a ++ b ++ c = a ++ (b ++ c) := by
  cases a with | mk la =>
  cases b with | mk lb =>
  cases c with | mk lc =>
  show String.mk (la ++ lb ++ lc) = String.mk (la ++ (lb ++ lc))
  rw [List.append_assoc]

/-- The accumulator of `String.intercalate.go` distributes on the left. -/
theorem intercalate_go_acc (sep p : String) : ∀ (l : List String) (acc : String),
    String.intercalate.go (p ++ acc) sep l = p ++ String.intercalate.go acc sep l := by
  intro l
  induction l with
  | nil =>
      intro acc
      rfl
  | cons a as ih =>
      intro acc
      show String.intercalate.go (p ++ acc ++ sep ++ a) sep as =
        p ++ String.intercalate.go (acc ++ sep ++ a) sep as
      rw [strAppend_assoc (p ++ acc) sep a, strAppend_assoc p acc (sep ++ a),
        ← strAppend_assoc acc sep a]
      exact ih (acc ++ sep ++ a)

/-- The source's option-joining loop produces exactly the `&`-join of the
rendered options. -/
theorem joinOpts_eq_intercalate : ∀ os : List Opt,
    joinOpts os = String.intercalate "&" (os.map Opt.render)
  | [] => rfl
  | [_] => rfl
  | o :: o' :: rest => by
      show o.render ++ "&" ++ joinOpts (o' :: rest) =
        String.intercalate "&" (o.render :: o'.render :: rest.map Opt.render)
      rw [joinOpts_eq_intercalate (o' :: rest)]
      show o.render ++ "&" ++ String.intercalate.go o'.render "&" (rest.map Opt.render) =
        String.intercalate.go (o.render ++ "&" ++ o'.render) "&" (rest.map Opt.render)
      rw [strAppend_assoc o.render "&" o'.render,
        ← intercalate_go_acc "&" (o.render ++ "&") (rest.map Opt.render) o'.render,
        strAppend_assoc o.render "&" o'.render]

/-- Claim C6: the outbound topic is `<key>/<channel>/<query>`, where the
query is `?` followed by the `option=value` strings joined by `&` when
options are present and empty otherwise, and where an empty (trimmed) key
drops the key segment and its slash. -/
theorem claim6_format_topic (key channel : String) (os : List Opt) :
    formatTopic key channel os =
      (if trimSuf (trimPre key "/") "/" = "" then
        trimSuf (trimPre channel "/") "/" ++ "/" ++
          (if os = [] then "" else "?" ++ String.intercalate "&" (os.map Opt.render))
      else
        trimSuf (trimPre key "/") "/" ++ "/" ++ trimSuf (trimPre channel "/") "/" ++ "/" ++
          (if os = [] then "" else "?" ++ String.intercalate "&" (os.map Opt.render))) := by
  have hq : (if os.length > 0 then "?" ++ joinOpts os else "") =
      (if os = [] then "" else "?" ++ String.intercalate "&" (os.map Opt.render)) := by
    cases os with
    | nil => rfl
    | cons o rest =>
        rw [if_pos (show (o :: rest).length > 0 from Nat.succ_pos rest.length),
          if_neg (List.cons_ne_nil o rest), joinOpts_eq_intercalate]
  simp only [formatTopic, hq]
  by_cases hk : trimSuf (trimPre key "/") "/" = ""
  · have hlen : (trimSuf (trimPre key "/") "/").data.length = 0 := by
      rw [hk]
      decide
    rw [if_pos hlen, if_pos hk]
  · have hlen : ¬((trimSuf (trimPre key "/") "/").data.length = 0) := by
      intro h
      exact hk (String.ext (List.length_eq_zero.mp h))
    rw [if_neg hlen, if_neg hk]

/-- Claim C7: the client identity is lazily resolved and cached.  With a
non-empty cached identifier the call returns it without issuing a request
or mutating state; with an empty cache a request is always issued, a
successfully typed `me` reply is stored and returned, and any other
outcome leaves the cache empty. -/
theorem claim7_identity_cache :
    (∀ (g : String) (out : Except GoErr Response), g ≠ "" →
      Client.ID g out = (g, g, false)) ∧
    (∀ out : Except GoErr Response, (Client.ID "" out).2.2 = true) ∧
    (∀ r : MeResponse, Client.ID "" (Except.ok (Response.me r)) = (r.id, r.id, true)) ∧
    (∀ out : Except GoErr Response, (∀ r, out ≠ Except.ok (Response.me r)) →
      Client.ID "" out = ("", "", true)) := by
  refine ⟨?_, ?_, ?_, ?_⟩
  · intro g out hg
    unfold Client.ID
    rw [if_pos hg]
  · intro out
    unfold Client.ID
    rw [if_neg (by simp)]
    rcases out with e | r
    · rfl
    · cases r <;> rfl
  · intro r
    rfl
  · intro out hne
    unfold Client.ID
    rw [if_neg (by simp)]
    rcases out with e | r
    · rfl
    · cases r with
      | me r0 => exact absurd rfl (hne r0)
      | err e => rfl
      | keygen k => rfl
      | link l => rfl

/-- Witness for C7: a cached identifier `g1` is returned untouched and no
request is issued. -/
theorem claim7_witness :
    ("g1" : String) ≠ "" ∧
    Client.ID "g1" (Except.error GoErr.timeout) = ("g1", "g1", false) :=
  ⟨by decide, claim7_identity_cache.1 "g1" (Except.error GoErr.timeout) (by decide)⟩

/-- Erasing a freshly appended element recovers the original list. -/
theorem erase_append_singleton (l : List Nat) (id : Nat) (h : id ∉ l) :
    (l ++ [id]).erase id = l := by
  induction l with
  | nil => simp
  | cons a as ih =>
      have hne : a ≠ id := by
        rintro rfl
        exact h (List.mem_cons_self a as)
      rw [List.cons_append, List.erase_cons_tail (by simpa using hne),
        ih (fun hm => h (List.mem_cons_of_mem a hm))]

/-- Counterexample to claim C4 as stated: when the underlying `me` request
times out, `Client.ID` returns the empty identifier — its caller receives
no Timeout error (the signature carries none). -/
theorem claim4_counterexample :
    Client.ID "" (Except.error GoErr.timeout) = ("", "", true) := rfl

/-- Claim C4 (amended): a blocking request whose slot is never filled
returns `ErrTimeout` once the timeout elapses — the slot yields the
synthetic timeout value, the call (and the wrappers GenerateKey,
CreateLink, CreatePrivateLink) returns `ErrTimeout` when the transport
publish itself succeeded, and a late `NotifyResponse` for the same id
returns false; `Client.ID` returns the empty identifier, swallowing the
error. -/
theorem claim4_timeout (s : Store) (id : Nat) (hid : id ∉ s.pending) :
    (Store.timeoutExpire (Store.PutCallback s id) id).1 = SlotValue.timedOut ∧
    Client.request SlotValue.timedOut true none = Except.error GoErr.timeout ∧
    Client.GenerateKey SlotValue.timedOut true none = Except.error GoErr.timeout ∧
    (∀ (tr : Trie) (oh : Option Nat),
      (Client.CreateLink tr SlotValue.timedOut true none oh).1 =
        Except.error GoErr.timeout) ∧
    (∀ (tr : Trie) (oh : Option Nat),
      (Client.CreatePrivateLink tr SlotValue.timedOut true none oh).1 =
        Except.error GoErr.timeout) ∧
    Client.ID "" (Except.error GoErr.timeout) = ("", "", true) ∧
    (Store.NotifyResponse (Store.timeoutExpire (Store.PutCallback s id) id).2 id).1 = false := by
  refine ⟨rfl, rfl, rfl, fun _ _ => rfl, fun _ _ => rfl, rfl, ?_⟩
  have hp : (Store.timeoutExpire (Store.PutCallback s id) id).2.pending = s.pending := by
    show (s.pending ++ [id]).erase id = s.pending
    exact erase_append_singleton s.pending id hid
  unfold Store.NotifyResponse
  rw [hp, if_neg hid]

/-- Witness for C4: with an empty store and fresh id 1, the timed-out
request yields `ErrTimeout` through `GenerateKey` and a late
`NotifyResponse` for id 1 reports no pending request. -/
theorem claim4_witness :
    (1 : Nat) ∉ (⟨[]⟩ : Store).pending ∧
    Client.GenerateKey SlotValue.timedOut true none = Except.error GoErr.timeout ∧
    (Store.NotifyResponse (Store.timeoutExpire (Store.PutCallback ⟨[]⟩ 1) 1).2 1).1 = false :=
  ⟨by decide, (claim4_timeout ⟨[]⟩ 1 (by decide)).2.2.1,
    (claim4_timeout ⟨[]⟩ 1 (by decide)).2.2.2.2.2.2⟩

/-- Routing: a message on an administrative-reply sub-prefix is handled by
`Client.onResponse` for the matching kind. -/
theorem onMessage_admin (c : Client) (m : Msg) (k : RespKind)
    (hpre : startsWith m.topic (adminPre k) = true) :
    Client.onMessage c m = (Client.onResponse c m k).2 := by
  cases k
  · have hemit : startsWith m.topic emitterPre = true :=
      startsWith_trans emitterPre keygenPre (by decide) hpre
    have hpres : startsWith m.topic presencePre = false :=
      startsWith_excl keygenPre presencePre hpre (by decide) (by decide)
    have herr : startsWith m.topic errorPre = false :=
      startsWith_excl keygenPre errorPre hpre (by decide) (by decide)
    unfold Client.onMessage
    rw [hemit, hpres, herr]
    rw [show startsWith m.topic keygenPre = true from hpre]
    simp
  · have hemit : startsWith m.topic emitterPre = true :=
      startsWith_trans emitterPre linkPre (by decide) hpre
    have hpres : startsWith m.topic presencePre = false :=
      startsWith_excl linkPre presencePre hpre (by decide) (by decide)
    have herr : startsWith m.topic errorPre = false :=
      startsWith_excl linkPre errorPre hpre (by decide) (by decide)
    have hkey : startsWith m.topic keygenPre = false :=
      startsWith_excl linkPre keygenPre hpre (by decide) (by decide)
    unfold Client.onMessage
    rw [hemit, hpres, herr, hkey]
    rw [show startsWith m.topic linkPre = true from hpre]
    simp
  · have hemit : startsWith m.topic emitterPre = true :=
      startsWith_trans emitterPre mePre (by decide) hpre
    have hpres : startsWith m.topic presencePre = false :=
      startsWith_excl mePre presencePre hpre (by decide) (by decide)
    have herr : startsWith m.topic errorPre = false :=
      startsWith_excl mePre errorPre hpre (by decide) (by decide)
    have hkey : startsWith m.topic keygenPre = false :=
      startsWith_excl mePre keygenPre hpre (by decide) (by decide)
    have hlink : startsWith m.topic linkPre = false :=
      startsWith_excl mePre linkPre hpre (by decide) (by decide)
    unfold Client.onMessage
    rw [hemit, hpres, herr, hkey, hlink]
    rw [show startsWith m.topic mePre = true from hpre]
    simp

/-- Every resolution `Client.onResponse` performs carries either the typed
response decoded from the payload or an error envelope. -/
theorem resolved_mem_onResponse (c : Client) (m : Msg) (k : RespKind) (id : Nat) (r : Response)
    (hmem : Effect.resolved id r ∈ (Client.onResponse c m k).2.1) :
    typedDecode m.payload k = some r ∨ (∃ e, r = Response.err e) := by
  have htyped : Effect.resolved id r ∈ (Client.onResponseTyped c m k).2.1 →
      typedDecode m.payload k = some r ∨ (∃ e, r = Response.err e) := by
    intro hm
    unfold Client.onResponseTyped at hm
    cases ht : typedDecode m.payload k with
    | none =>
        rw [ht] at hm
        simp at hm
    | some r0 =>
        rw [ht] at hm
        by_cases hpos : respID r0 > 0
        · by_cases hb : (Store.NotifyResponse c.store (respID r0)).1 = true
          · simp [hpos, hb] at hm
            rw [hm.2]
            exact Or.inl rfl
          · simp [hpos, hb] at hm
        · simp [hpos] at hm
  unfold Client.onResponse at hmem
  cases he : m.payload.asError with
  | none =>
      rw [he] at hmem
      exact htyped hmem
  | some e =>
      rw [he] at hmem
      by_cases hne : e.message ≠ ""
      · by_cases hb : (Store.NotifyResponse c.store e.requestID).1 = true
        · simp [hne, hb] at hmem
          exact Or.inr ⟨e, hmem.2⟩
        · simp [hne, hb] at hmem
      · simp only [hne, if_neg] at hmem
        simp at hne
        simp [hne] at hmem
        exact htyped hmem

/-- The slot values the keygen dispatch path (or a timeout) can deliver to
a waiting `GenerateKey` call. -/
def keygenDelivered (s : SlotValue) : Prop :=
  (∃ kr, s = SlotValue.delivered (Response.keygen kr)) ∨
  (∃ e, s = SlotValue.delivered (Response.err e)) ∨ s = SlotValue.timedOut

/-- The slot values the link dispatch path (or a timeout) can deliver to a
waiting `CreateLink`/`CreatePrivateLink` call. -/
def linkDelivered (s : SlotValue) : Prop :=
  (∃ lr, s = SlotValue.delivered (Response.link lr)) ∨
  (∃ e, s = SlotValue.delivered (Response.err e)) ∨ s = SlotValue.timedOut

/-- Claim C5: a blocking administrative call returns either the whole typed
result or an error among Timeout, Transport and Service — never
`ErrUnmarshal` — given a slot value its own dispatch path can deliver;
those paths only ever resolve a request with the matching typed response
or an error envelope; and a payload nobody decodes leaves the caller with
`ErrTimeout`. -/
theorem claim5_call_results :
    (∀ (slot : SlotValue) (wOK : Bool) (tErr : Option String), keygenDelivered slot →
      (∃ kr, slot = SlotValue.delivered (Response.keygen kr) ∧
        Client.GenerateKey slot wOK tErr = Except.ok kr.key) ∨
      (∃ e, Client.GenerateKey slot wOK tErr = Except.error e ∧ e ≠ GoErr.unmarshal)) ∧
    (∀ (tr : Trie) (oh : Option Nat) (slot : SlotValue) (wOK : Bool) (tErr : Option String),
      linkDelivered slot →
      (∃ lr, slot = SlotValue.delivered (Response.link lr) ∧
        (Client.CreateLink tr slot wOK tErr oh).1 = Except.ok lr) ∨
      (∃ e, (Client.CreateLink tr slot wOK tErr oh).1 = Except.error e ∧
        e ≠ GoErr.unmarshal)) ∧
    (∀ (tr : Trie) (oh : Option Nat) (slot : SlotValue) (wOK : Bool) (tErr : Option String),
      linkDelivered slot →
      (∃ lr, slot = SlotValue.delivered (Response.link lr) ∧
        (Client.CreatePrivateLink tr slot wOK tErr oh).1 = Except.ok lr) ∨
      (∃ e, (Client.CreatePrivateLink tr slot wOK tErr oh).1 = Except.error e ∧
        e ≠ GoErr.unmarshal)) ∧
    (∀ (c : Client) (m : Msg) (id : Nat) (r : Response),
      startsWith m.topic keygenPre = true →
      Effect.resolved id r ∈ (Client.onMessage c m).1 →
      (∃ kr, r = Response.keygen kr) ∨ (∃ e, r = Response.err e)) ∧
    (∀ (c : Client) (m : Msg) (id : Nat) (r : Response),
      startsWith m.topic linkPre = true →
      Effect.resolved id r ∈ (Client.onMessage c m).1 →
      (∃ lr, r = Response.link lr) ∨ (∃ e, r = Response.err e)) ∧
    Client.GenerateKey SlotValue.timedOut true none = Except.error GoErr.timeout := by
  refine ⟨?_, ?_, ?_, ?_, ?_, rfl⟩
  · rintro slot wOK tErr (⟨kr, rfl⟩ | ⟨e, rfl⟩ | rfl)
    · cases wOK
      · exact Or.inr ⟨GoErr.timeout, rfl, by simp⟩
      · cases tErr with
        | none => exact Or.inl ⟨kr, rfl, rfl⟩
        | some s => exact Or.inr ⟨GoErr.transport s, rfl, by simp⟩
    · cases wOK
      · exact Or.inr ⟨GoErr.timeout, rfl, by simp⟩
      · cases tErr with
        | none => exact Or.inr ⟨GoErr.service e, rfl, by simp⟩
        | some s => exact Or.inr ⟨GoErr.transport s, rfl, by simp⟩
    · cases wOK
      · exact Or.inr ⟨GoErr.timeout, rfl, by simp⟩
      · cases tErr with
        | none => exact Or.inr ⟨GoErr.timeout, rfl, by simp⟩
        | some s => exact Or.inr ⟨GoErr.transport s, rfl, by simp⟩
  · rintro tr oh slot wOK tErr (⟨lr, rfl⟩ | ⟨e, rfl⟩ | rfl)
    · cases wOK
      · exact Or.inr ⟨GoErr.timeout, rfl, by simp⟩
      · cases tErr with
        | none =>
            refine Or.inl ⟨lr, rfl, ?_⟩
            cases oh <;> rfl
        | some s => exact Or.inr ⟨GoErr.transport s, rfl, by simp⟩
    · cases wOK
      · exact Or.inr ⟨GoErr.timeout, rfl, by simp⟩
      · cases tErr with
        | none => exact Or.inr ⟨GoErr.service e, rfl, by simp⟩
        | some s => exact Or.inr ⟨GoErr.transport s, rfl, by simp⟩
    · cases wOK
      · exact Or.inr ⟨GoErr.timeout, rfl, by simp⟩
      · cases tErr with
        | none => exact Or.inr ⟨GoErr.timeout, rfl, by simp⟩
        | some s => exact Or.inr ⟨GoErr.transport s, rfl, by simp⟩
  · rintro tr oh slot wOK tErr (⟨lr, rfl⟩ | ⟨e, rfl⟩ | rfl)
    · cases wOK
      · exact Or.inr ⟨GoErr.timeout, rfl, by simp⟩
      · cases tErr with
        | none =>
            refine Or.inl ⟨lr, rfl, ?_⟩
            cases oh <;> rfl
        | some s => exact Or.inr ⟨GoErr.transport s, rfl, by simp⟩
    · cases wOK
      · exact Or.inr ⟨GoErr.timeout, rfl, by simp⟩
      · cases tErr with
        | none => exact Or.inr ⟨GoErr.service e, rfl, by simp⟩
        | some s => exact Or.inr ⟨GoErr.transport s, rfl, by simp⟩
    · cases wOK
      · exact Or.inr ⟨GoErr.timeout, rfl, by simp⟩
      · cases tErr with
        | none => exact Or.inr ⟨GoErr.timeout, rfl, by simp⟩
        | some s => exact Or.inr ⟨GoErr.transport s, rfl, by simp⟩
  · intro c m id r hpre hmem
    rw [onMessage_admin c m RespKind.keygen hpre] at hmem
    rcases resolved_mem_onResponse c m RespKind.keygen id r hmem with ht | ⟨e, rfl⟩
    · rcases Option.map_eq_some'.mp ht with ⟨kr, _, rfl⟩
      exact Or.inl ⟨kr, rfl⟩
    · exact Or.inr ⟨e, rfl⟩
  · intro c m id r hpre hmem
    rw [onMessage_admin c m RespKind.link hpre] at hmem
    rcases resolved_mem_onResponse c m RespKind.link id r hmem with ht | ⟨e, rfl⟩
    · rcases Option.map_eq_some'.mp ht with ⟨lr, _, rfl⟩
      exact Or.inl ⟨lr, rfl⟩
    · exact Or.inr ⟨e, rfl⟩

/-- Witness for C5: a delivered keygen response with key `K` makes
`GenerateKey` return exactly that key. -/
theorem claim5_witness :
    keygenDelivered (SlotValue.delivered (Response.keygen ⟨2, "K"⟩)) ∧
    ((∃ kr, SlotValue.delivered (Response.keygen ⟨2, "K"⟩) =
        SlotValue.delivered (Response.keygen kr) ∧
      Client.GenerateKey (SlotValue.delivered (Response.keygen ⟨2, "K"⟩)) true none =
        Except.ok kr.key) ∨
     (∃ e, Client.GenerateKey (SlotValue.delivered (Response.keygen ⟨2, "K"⟩)) true none =
        Except.error e ∧ e ≠ GoErr.unmarshal)) :=
  ⟨Or.inl ⟨⟨2, "K"⟩, rfl⟩,
    claim5_call_results.1 (SlotValue.delivered (Response.keygen ⟨2, "K"⟩)) true none
      (Or.inl ⟨⟨2, "K"⟩, rfl⟩)⟩

/-- Segment-list counterpart of `wildcardFree`. -/
def segsWf (ts : List Seg) : Bool :=
  ts.all (fun u => !(u = plusSeg : Bool) && !(u = hashSeg : Bool))

/-- The exact/wildcard child branch of a lookup step. -/
def childLookup (cs : List (Seg × Trie)) (key : Seg) (r : List Seg) : List Nat :=
  match assocGet cs key with
  | some c => lookupSegs r c
  | none => []

/-- The handlers contributed by a `#` child. -/
def hashHandlers (cs : List (Seg × Trie)) : List Nat :=
  match assocGet cs hashSeg with
  | some c => c.handlers
  | none => []

/-- One lookup step decomposes into the three branch contributions. -/
theorem lookupSegs_cons (s : Seg) (r : List Seg) (hs : List Nat) (cs : List (Seg × Trie)) :
    lookupSegs (s :: r) (.node hs cs) =
      childLookup cs s r ++ childLookup cs plusSeg r ++ hashHandlers cs := rfl

/-- Lookup in the empty registry finds nothing. -/
theorem lookupSegs_empty (ts : List Seg) : lookupSegs ts triEmpty = [] := by
  cases ts with
  | nil => rfl
  | cons s r => rfl

/-- `assocGet` after `assocSet` behaves like a pointwise update. -/
theorem assocGet_assocSet (cs : List (Seg × Trie)) (key : Seg) (v : Trie) (key' : Seg) :
    assocGet (assocSet cs key v) key' = if key' = key then some v else assocGet cs key' := by
  induction cs with
  | nil =>
      by_cases h : key' = key
      · simp [assocSet, assocGet, h]
      · simp [assocSet, assocGet, h, Ne.symm h]
  | cons kv rest ih =>
      obtain ⟨k, c⟩ := kv
      by_cases hk : k = key
      · subst hk
        by_cases h : key' = k
        · subst h
          simp [assocSet, assocGet]
        · simp [assocSet, assocGet, h, Ne.symm h]
      · by_cases h : key' = k
        · subst h
          simp [assocSet, assocGet, hk, Ne.symm hk]
        · simp [assocSet, assocGet, hk, h, Ne.symm h, ih]

/-- A branch read after an update: the updated key returns the new child,
every other key is unchanged. -/
theorem childLookup_set (cs : List (Seg × Trie)) (key : Seg) (v : Trie) (key' : Seg)
    (r : List Seg) :
    childLookup (assocSet cs key v) key' r =
      if key' = key then lookupSegs r v else childLookup cs key' r := by
  unfold childLookup
  rw [assocGet_assocSet]
  by_cases h : key' = key
  · simp [h]
  · simp [h]

/-- The `#` handlers after an update. -/
theorem hashHandlers_set (cs : List (Seg × Trie)) (key : Seg) (v : Trie) :
    hashHandlers (assocSet cs key v) =
      if hashSeg = key then v.handlers else hashHandlers cs := by
  unfold hashHandlers
  rw [assocGet_assocSet]
  by_cases h : hashSeg = key
  · simp [h]
  · simp [h]

/-- Looking below a possibly missing child equals the branch contribution. -/
theorem mem_lookup_getD (x : Nat) (cs : List (Seg × Trie)) (key : Seg) (r : List Seg) :
    x ∈ lookupSegs r ((assocGet cs key).getD triEmpty) ↔ x ∈ childLookup cs key r := by
  cases hget : assocGet cs key with
  | some c => simp [childLookup, hget]
  | none => simp [childLookup, hget, lookupSegs_empty]

/-- Registering at the end of a path appends to that node's handlers. -/
theorem handlers_addSegs_nil (h : Nat) (t : Trie) :
    (addSegs [] h t).handlers = t.handlers ++ [h] := by
  cases t
  rfl

/-- Registering below a node leaves its own handlers unchanged. -/
theorem handlers_addSegs_cons (p : Seg) (ps : List Seg) (h : Nat) (t : Trie) :
    (addSegs (p :: ps) h t).handlers = t.handlers := by
  cases t
  rfl

/-- The handlers of a possibly missing `#` child are its contribution. -/
theorem handlers_getD_hash (cs : List (Seg × Trie)) :
    ((assocGet cs hashSeg).getD triEmpty).handlers = hashHandlers cs := by
  cases hget : assocGet cs hashSeg with
  | some c => simp [hashHandlers, hget]
  | none => simp [hashHandlers, hget, triEmpty, Trie.handlers]

/-- Core registry correctness: after registering `h` under the pattern
segments `ps`, a wildcard-free topic finds `h` exactly when the pattern
matches it, and finds everything it found before. -/
theorem mem_lookup_addSegs (x h : Nat) : ∀ (ps : List Seg) (t : Trie) (ts : List Seg),
    segsWf ts = true →
    (x ∈ lookupSegs ts (addSegs ps h t) ↔
      x ∈ lookupSegs ts t ∨ (x = h ∧ patMatch ps ts = true)) := by
  intro ps
  induction ps with
  | nil =>
      intro t ts _
      obtain ⟨hs, cs⟩ := t
      cases ts with
      | nil =>
          simp [addSegs, lookupSegs, Trie.handlers, patMatch]
      | cons s r =>
          show x ∈ lookupSegs (s :: r) (.node (hs ++ [h]) cs) ↔ _
          rw [lookupSegs_cons, lookupSegs_cons]
          simp [patMatch]
  | cons p ps' ih =>
      intro t ts hwf
      obtain ⟨hs, cs⟩ := t
      cases ts with
      | nil =>
          show x ∈ (addSegs (p :: ps') h (.node hs cs)).handlers ↔
            x ∈ Trie.handlers (.node hs cs) ∨ (x = h ∧ patMatch (p :: ps') [] = true)
          rw [handlers_addSegs_cons]
          simp [patMatch]
      | cons s r =>
          unfold segsWf at hwf
          rw [List.all_cons, Bool.and_eq_true, Bool.and_eq_true] at hwf
          obtain ⟨⟨hsp', hsh'⟩, hwr⟩ := hwf
          have hsp : ¬s = plusSeg := by simpa using hsp'
          have hsh : ¬s = hashSeg := by simpa using hsh'
          have hwr' : segsWf r = true := hwr
          rw [show addSegs (p :: ps') h (Trie.node hs cs) =
            Trie.node hs (assocSet cs p (addSegs ps' h ((assocGet cs p).getD triEmpty)))
            from rfl]
          rw [lookupSegs_cons, lookupSegs_cons]
          rw [childLookup_set, childLookup_set, hashHandlers_set]
          by_cases h1 : s = p
          · subst h1
            rw [if_pos rfl, if_neg (fun hq : plusSeg = s => hsp hq.symm),
              if_neg (fun hq : hashSeg = s => hsh hq.symm)]
            have hpm : patMatch (s :: ps') (s :: r) = patMatch ps' r := by
              simp only [patMatch]
              rw [if_neg (fun hq : s = hashSeg ∧ ps' = [] => hsh hq.1)]
              simp
            rw [hpm]
            simp only [List.mem_append, ih ((assocGet cs s).getD triEmpty) r hwr',
              mem_lookup_getD]
            tauto
          · by_cases h2 : p = plusSeg
            · subst h2
              rw [if_neg h1, if_pos rfl, if_neg (by decide)]
              have hpm : patMatch (plusSeg :: ps') (s :: r) = patMatch ps' r := by
                simp only [patMatch]
                rw [if_neg (fun hq : plusSeg = hashSeg ∧ ps' = [] =>
                  absurd hq.1 (by decide))]
                simp
              rw [hpm]
              simp only [List.mem_append, ih ((assocGet cs plusSeg).getD triEmpty) r hwr',
                mem_lookup_getD]
              tauto
            · by_cases h3 : p = hashSeg
              · subst h3
                rw [if_neg h1, if_neg (by decide), if_pos rfl]
                cases ps' with
                | nil =>
                    rw [handlers_addSegs_nil, handlers_getD_hash]
                    have hpm : patMatch [hashSeg] (s :: r) = true := by
                      simp only [patMatch]
                      rw [if_pos ⟨trivial, trivial⟩]
                    rw [hpm]
                    simp only [List.mem_append, List.mem_singleton]
                    tauto
                | cons q qs =>
                    rw [handlers_addSegs_cons, handlers_getD_hash]
                    have hpm : patMatch (hashSeg :: q :: qs) (s :: r) = false := by
                      simp only [patMatch]
                      rw [if_neg (fun hq : True ∧ q :: qs = [] =>
                        List.cons_ne_nil q qs hq.2)]
                      have hh1 : (hashSeg = plusSeg) = False := by
                        simp only [eq_iff_iff, iff_false]
                        decide
                      have hh2 : (hashSeg = s) = False := by
                        simp only [eq_iff_iff, iff_false]
                        exact fun hq => hsh hq.symm
                      simp [hh1, hh2]
                    rw [hpm]
                    simp
              · rw [if_neg h1, if_neg (fun hq : plusSeg = p => h2 hq.symm),
                  if_neg (fun hq : hashSeg = p => h3 hq.symm)]
                have hpm : patMatch (p :: ps') (s :: r) = false := by
                  simp only [patMatch]
                  rw [if_neg (fun hq : p = hashSeg ∧ ps' = [] => h3 hq.1)]
                  have hh1 : (p = plusSeg) = False := by
                    simp only [eq_iff_iff, iff_false]
                    exact h2
                  have hh2 : (p = s) = False := by
                    simp only [eq_iff_iff, iff_false]
                    exact fun hq => h1 hq.symm
                  simp [hh1, hh2]
                rw [hpm]
                simp

/-- String-level registry correctness for a single registration. -/
theorem mem_Lookup_AddHandler (x h : Nat) (t : Trie) (pattern topic : String)
    (hwf : wildcardFree topic = true) :
    x ∈ Trie.Lookup (t.AddHandler pattern h) topic ↔
      x ∈ Trie.Lookup t topic ∨ (x = h ∧ topicMatches pattern topic = true) :=
  mem_lookup_addSegs x h (splitStr pattern) t (splitStr topic) hwf

/-- Folding registrations over any starting registry adds exactly the
matching bindings to every wildcard-free lookup. -/
theorem mem_Lookup_foldl (x : Nat) (topic : String) (hwf : wildcardFree topic = true) :
    ∀ (bs : List (String × Nat)) (t : Trie),
      (x ∈ Trie.Lookup (bs.foldl (fun t0 b => t0.AddHandler b.1 b.2) t) topic ↔
        x ∈ Trie.Lookup t topic ∨
          ∃ pb, pb ∈ bs ∧ pb.2 = x ∧ topicMatches pb.1 topic = true) := by
  intro bs
  induction bs with
  | nil =>
      intro t
      simp
  | cons b rest ih =>
      intro t
      rw [List.foldl_cons, ih (t.AddHandler b.1 b.2),
        mem_Lookup_AddHandler x b.2 t b.1 topic hwf]
      constructor
      · rintro ((hmem | ⟨rfl, hm⟩) | ⟨pb, hpb, hx, hm⟩)
        · exact Or.inl hmem
        · exact Or.inr ⟨b, List.mem_cons_self b rest, rfl, hm⟩
        · exact Or.inr ⟨pb, List.mem_cons_of_mem b hpb, hx, hm⟩
      · rintro (hmem | ⟨pb, hpb, hx, hm⟩)
        · exact Or.inl (Or.inl hmem)
        · rcases List.mem_cons.mp hpb with rfl | hpb'
          · exact Or.inl (Or.inr ⟨hx.symm, hm⟩)
          · exact Or.inr ⟨pb, hpb', hx, hm⟩

/-- Claim C8: for a registry built from any list of (pattern, callback)
bindings, `Lookup` on a wildcard-free topic returns a callback exactly
when one of its patterns matches the topic under the wildcard semantics
(exact and `+` per segment, `#` at final position short-circuiting one or
more remaining segments); concretely, `a/+/c` matches `a/b/c` but not
`a/b/d/c`, and `a/#` matches both `a/b` and `a/b/c/d`. -/
theorem claim8_lookup_iff :
    (∀ (bs : List (String × Nat)) (topic : String) (x : Nat), wildcardFree topic = true →
      (x ∈ Trie.Lookup (buildTrie bs) topic ↔
        ∃ pb, pb ∈ bs ∧ pb.2 = x ∧ topicMatches pb.1 topic = true)) ∧
    Trie.Lookup (Trie.AddHandler triEmpty "a/+/c" 1) "a/b/c" = [1] ∧
    Trie.Lookup (Trie.AddHandler triEmpty "a/+/c" 1) "a/b/d/c" = [] ∧
    Trie.Lookup (Trie.AddHandler triEmpty "a/#" 1) "a/b" = [1] ∧
    Trie.Lookup (Trie.AddHandler triEmpty "a/#" 1) "a/b/c/d" = [1] ∧
    topicMatches "a/+/c" "a/b/c" = true ∧
    topicMatches "a/+/c" "a/b/d/c" = false ∧
    topicMatches "a/#" "a/b" = true ∧
    topicMatches "a/#" "a/b/c/d" = true := by
  refine ⟨?_, by decide, by decide, by decide, by decide, by decide, by decide, by decide,
    by decide⟩
  intro bs topic x hwf
  have hfold := mem_Lookup_foldl x topic hwf bs triEmpty
  rw [show buildTrie bs = bs.foldl (fun t0 b => t0.AddHandler b.1 b.2) triEmpty from rfl,
    hfold]
  simp [Trie.Lookup, lookupSegs_empty]

/-- Witness for C8: on the singleton registry binding `a/+/c` to 1, the
lookup of the wildcard-free topic `a/b/c` contains 1 exactly because the
pattern matches. -/
theorem claim8_witness :
    wildcardFree "a/b/c" = true ∧
    ((1 : Nat) ∈ Trie.Lookup (buildTrie [("a/+/c", 1)]) "a/b/c" ↔
      ∃ pb, pb ∈ [("a/+/c", (1 : Nat))] ∧ pb.2 = 1 ∧ topicMatches pb.1 "a/b/c" = true) :=
  ⟨by decide, claim8_lookup_iff.1 [("a/+/c", 1)] "a/b/c" 1 (by decide)⟩
